import Mathlib

/-!
Verification of the gitlab-repo-cloner tool (src/main.go) against its
natural-language specification.

The program walks a GitLab group hierarchy and clones or force-pulls every
discovered project.  We embed the three core functions
(`RepoCloner.Group`, `RepoCloner.Project`, `RepoCloner.gitClone`) as
trace-producing functions over

  * a `World`: the remote directory service (GitLab API), giving group
    metadata, direct-project lists, subgroup lists and project metadata,
    each fallible (`Option`); listings are ordered by name ascending and
    served to the caller one page at a time (`listPage`);
  * a `GitBackend`: the per-destination outcomes of the version-control
    library calls (clone / open / worktree / pull).

Recursion over the remote hierarchy is fuel-indexed; running out of fuel
emits the distinguished `Ev.fuelOut` event, and the termination claim is
proved as: under an acyclicity measure the event never occurs and the
trace does not depend on the fuel.

A second, small model (`GitState`, `RepoCloner.gitCloneS`) interprets the
sync primitive against the version-control backend contract stated in the
spec (clone distinguishes "already exists", forced update distinguishes
"already up to date"), to settle the idempotence and force-policy claims.
-/

/-- A project as returned by the GitLab API: numeric ID, short path
segment (leaf directory name), SSH clone URL.  (`gitlab.Project`, the
fields `gitClone` reads.) -/
structure GProject where
  id : Int
  path : String
  sshURLToRepo : String
deriving DecidableEq, Repr

/-- A group as returned by the GitLab API: numeric ID and full
hierarchical path.  (`gitlab.Group`, the fields the traversal reads.) -/
structure GGroup where
  id : Int
  fullPath : String
deriving DecidableEq, Repr

/-- Pagination/ordering options sent with every listing call
(`gitlab.ListOptions`).  The Go code leaves the page number unset, which
the API serves as the first page; we record that as `page := 1`. -/
structure ListOptions where
  page : Nat
  perPage : Nat
  orderBy : String
  sort : String
deriving DecidableEq, Repr

/-- The single options value used by every listing call
(`listOptions` in main.go: PerPage 1000, OrderBy "name", Sort "asc"). -/
def listOptions : ListOptions :=
  { page := 1, perPage := 1000, orderBy := "name", sort := "asc" }

/-- The page of a full (name-ascending) listing that the remote API
returns for the given options: skip the earlier pages, return at most
`perPage` entries.  (Behaviour of the external directory service; the
program itself only ever asks for one page.) -/
def listPage {α : Type} (opts : ListOptions) (l : List α) : List α :=
  (l.drop ((opts.page - 1) * opts.perPage)).take opts.perPage

/-- The remote GitLab instance: each API call either fails (`none`) or
returns data.  Project and subgroup lists are the full name-ascending
listings, of which the API serves pages via `listPage`. -/
structure World where
  getGroup : Int → Option GGroup
  groupProjects : Int → Option (List GProject)
  subGroups : Int → Option (List GGroup)
  getProject : Int → Option GProject

/-- Outcome of a `git.PlainClone` call at a destination path. -/
inductive CloneOutcome
  | cloned
  | alreadyExists
  | failed
deriving DecidableEq, Repr

/-- Outcome of a `git.PlainOpen` call. -/
inductive OpenOutcome
  | opened
  | failed
deriving DecidableEq, Repr

/-- Outcome of a `repo.Worktree()` call. -/
inductive WorktreeOutcome
  | ok
  | failed
deriving DecidableEq, Repr

/-- Outcome of a `work.Pull` call: applied new commits, found nothing new
(`git.NoErrAlreadyUpToDate`), or failed with any other error. -/
inductive PullOutcome
  | updated
  | alreadyUpToDate
  | failed
deriving DecidableEq, Repr

/-- The version-control library, keyed by destination path: what each of
the four calls made by `gitClone` would return there. -/
structure GitBackend where
  clone : String → CloneOutcome
  openRepo : String → OpenOutcome
  worktree : String → WorktreeOutcome
  pull : String → PullOutcome

/-- Observable events of a run: network fetches against the API, the
version-control calls (a clone or pull both fetches over the network and
writes the filesystem under its path), warnings for exclusions, error
logs, and the fuel-exhaustion marker of the embedding. -/
inductive Ev
  | getGroup (id : Int)
  | listGroupProjects (id : Int) (page perPage : Nat)
  | listSubGroups (id : Int) (page perPage : Nat)
  | getProject (id : Int)
  | cloneCall (projectId : Int) (path url : String)
  | openCall (path : String)
  | worktreeCall (path : String)
  | pullCall (path remote : String) (force : Bool)
  | warnIgnoreGroup (id : Int)
  | warnIgnoreProject (id : Int)
  | errLog (stage : String)
  | fuelOut
deriving DecidableEq, Repr

/-- Go's `path.Join` restricted to the inputs this program builds
(already-clean relative segments): empty components disappear, the rest
are joined with a slash. -/
def pathJoin (a b : String) : String :=
  if a = "" then b else if b = "" then a else a ++ "/" ++ b

/-- The tool's configuration (the fields of the Go `RepoCloner` struct
that the core logic reads). -/
structure RepoCloner where
  destDir : String
  ignoreProjectIDs : List Int
  ignoreGroupIDs : List Int

/-- `RepoCloner.gitClone` from main.go as a trace: join the destination
prefix and the project's path segment under `destDir`, attempt a clone;
a clone error other than `ErrRepositoryAlreadyExists` is logged and the
sync abandoned; otherwise open the repository, take its worktree, and
pull from `origin` with force; a pull error other than
`NoErrAlreadyUpToDate` is logged; any terminal success just returns. -/
def RepoCloner.gitClone (rc : RepoCloner) (gb : GitBackend) (project : GProject)
    (dest : String) : List Ev :=
  let subPath := pathJoin dest project.path
  let full := pathJoin rc.destDir subPath
  Ev.cloneCall project.id full project.sshURLToRepo ::
  match gb.clone full with
  | CloneOutcome.failed => [Ev.errLog "clone"]
  | _ =>
    Ev.openCall full ::
    match gb.openRepo full with
    | OpenOutcome.failed => [Ev.errLog "open"]
    | OpenOutcome.opened =>
      Ev.worktreeCall full ::
      match gb.worktree full with
      | WorktreeOutcome.failed => [Ev.errLog "worktree"]
      | WorktreeOutcome.ok =>
        Ev.pullCall full "origin" true ::
        match gb.pull full with
        | PullOutcome.failed => [Ev.errLog "pull"]
        | _ => []

/-- `RepoCloner.Group` from main.go as a fuel-indexed trace: skip excluded
groups before any fetch; fetch the group (abandon the subtree on error);
list its direct projects (abandon on error, which also skips the subgroup
listing); sync each listed project with the group's full path as
destination prefix; list subgroups (abandon on error); recurse into each
subgroup.  Exhausted fuel emits `Ev.fuelOut`. -/
def RepoCloner.Group (rc : RepoCloner) (w : World) (gb : GitBackend) :
    Nat → Int → List Ev
  | 0, _ => [Ev.fuelOut]
  | fuel + 1, groupID =>
    if groupID ∈ rc.ignoreGroupIDs then [Ev.warnIgnoreGroup groupID]
    else
      Ev.getGroup groupID ::
      match w.getGroup groupID with
      | none => [Ev.errLog "get group"]
      | some group =>
        Ev.listGroupProjects group.id listOptions.page listOptions.perPage ::
        match w.groupProjects group.id with
        | none => [Ev.errLog "list projects"]
        | some allProjects =>
          ((listPage listOptions allProjects).map
              (fun project => rc.gitClone gb project group.fullPath)).flatten ++
          Ev.listSubGroups group.id listOptions.page listOptions.perPage ::
          match w.subGroups group.id with
          | none => [Ev.errLog "list subgroups"]
          | some allGroups =>
            ((listPage listOptions allGroups).map
                (fun g => RepoCloner.Group rc w gb fuel g.id)).flatten

/-- `RepoCloner.Project` from main.go as a trace: skip excluded projects
before any fetch; fetch the project metadata (abandon on error); sync it
with an empty destination prefix. -/
def RepoCloner.Project (rc : RepoCloner) (w : World) (gb : GitBackend)
    (projectID : Int) : List Ev :=
  if projectID ∈ rc.ignoreProjectIDs then [Ev.warnIgnoreProject projectID]
  else
    Ev.getProject projectID ::
    match w.getProject projectID with
    | none => [Ev.errLog "get project"]
    | some project => rc.gitClone gb project ""

/-- The root loops of `main`: visit every root group, then every root
project, each independently. -/
def runRoots (rc : RepoCloner) (w : World) (gb : GitBackend) (fuel : Nat)
    (groupIDs projectIDs : List Int) : List Ev :=
  (groupIDs.map (RepoCloner.Group rc w gb fuel)).flatten ++
  (projectIDs.map (RepoCloner.Project rc w gb)).flatten

/-- State of one repository destination for the sync-primitive model:
`localRepo` is `none` when no repository exists at the path, otherwise a
summary of the local working tree's content; `remoteTip` summarises the
remote repository's current content. -/
structure GitState where
  localRepo : Option Nat
  remoteTip : Nat
deriving DecidableEq, Repr

/-- Result of one sync call in the sync-primitive model, named after the
branch of `gitClone` that produced it. -/
inductive SyncResult
  | alreadyUpToDate
  | pulledUpdate
deriving DecidableEq, Repr

/-- The control flow of `RepoCloner.gitClone` interpreted against the
version-control backend contract the spec states for the external
library (spec section 6, not code of this repository): a clone at an
occupied path fails with `ErrRepositoryAlreadyExists` (not an error, the
existing repository is opened instead), a clone at an empty path creates
the repository at the remote tip, and the forced pull from `origin` sets
the local tree to the remote tip, returning `NoErrAlreadyUpToDate` (not
an error) when it was already there.  Returns the new state and which
terminal-success branch the pull took. -/
def RepoCloner.gitCloneS (s : GitState) : GitState × SyncResult :=
  match s.localRepo with
  | none =>
    let s1 : GitState := { s with localRepo := some s.remoteTip }
    if s1.localRepo = some s1.remoteTip then (s1, SyncResult.alreadyUpToDate)
    else ({ s1 with localRepo := some s1.remoteTip }, SyncResult.pulledUpdate)
  | some c =>
    if (some c : Option Nat) = some s.remoteTip then (s, SyncResult.alreadyUpToDate)
    else ({ s with localRepo := some s.remoteTip }, SyncResult.pulledUpdate)

/-- A listing event asks for the first page with page size 1000; any
other event passes. -/
def evFirstPage (e : Ev) : Bool :=
  match e with
  | Ev.listGroupProjects _ page perPage => page == 1 && perPage == 1000
  | Ev.listSubGroups _ page perPage => page == 1 && perPage == 1000
  | _ => true

/-- Every listing event in the trace asks for the first page with page
size 1000. -/
def firstPageOnly (es : List Ev) : Bool :=
  es.all evFirstPage

/-- A pull event targets the `origin` remote with force enabled; any
other event passes. -/
def evPullForced (e : Ev) : Bool :=
  match e with
  | Ev.pullCall _ remote force => remote == "origin" && force
  | _ => true

/-- Every pull event in the trace targets the `origin` remote with force
enabled. -/
def pullsForced (es : List Ev) : Bool :=
  es.all evPullForced

lemma pullsForced_append (a b : List Ev) :
    pullsForced (a ++ b) = (pullsForced a && pullsForced b) := by
  simp [pullsForced, List.all_append]

lemma firstPageOnly_append (a b : List Ev) :
    firstPageOnly (a ++ b) = (firstPageOnly a && firstPageOnly b) := by
  simp [firstPageOnly, List.all_append]

lemma pullsForced_gitClone (rc : RepoCloner) (gb : GitBackend) (p : GProject)
    (dest : String) : pullsForced (rc.gitClone gb p dest) = true := by
  unfold RepoCloner.gitClone
  cases h1 : gb.clone (pathJoin rc.destDir (pathJoin dest p.path)) <;>
    cases h2 : gb.openRepo (pathJoin rc.destDir (pathJoin dest p.path)) <;>
    cases h3 : gb.worktree (pathJoin rc.destDir (pathJoin dest p.path)) <;>
    cases h4 : gb.pull (pathJoin rc.destDir (pathJoin dest p.path)) <;>
    simp [h1, h2, h3, h4, pullsForced, evPullForced]

lemma firstPageOnly_gitClone (rc : RepoCloner) (gb : GitBackend) (p : GProject)
    (dest : String) : firstPageOnly (rc.gitClone gb p dest) = true := by
  unfold RepoCloner.gitClone
  cases h1 : gb.clone (pathJoin rc.destDir (pathJoin dest p.path)) <;>
    cases h2 : gb.openRepo (pathJoin rc.destDir (pathJoin dest p.path)) <;>
    cases h3 : gb.worktree (pathJoin rc.destDir (pathJoin dest p.path)) <;>
    cases h4 : gb.pull (pathJoin rc.destDir (pathJoin dest p.path)) <;>
    simp [h1, h2, h3, h4, firstPageOnly, evFirstPage]

lemma fuelOut_not_mem_gitClone (rc : RepoCloner) (gb : GitBackend) (p : GProject)
    (dest : String) : Ev.fuelOut ∉ rc.gitClone gb p dest := by
  unfold RepoCloner.gitClone
  cases h1 : gb.clone (pathJoin rc.destDir (pathJoin dest p.path)) <;>
    cases h2 : gb.openRepo (pathJoin rc.destDir (pathJoin dest p.path)) <;>
    cases h3 : gb.worktree (pathJoin rc.destDir (pathJoin dest p.path)) <;>
    cases h4 : gb.pull (pathJoin rc.destDir (pathJoin dest p.path)) <;>
    simp [h1, h2, h3, h4]

/-- C2: the Sync Primitive is idempotent: for every repository state, a
second sync right after a first one (no upstream change in between: the
remote tip is whatever the first call left in the state) takes the
`AlreadyUpToDate` branch and leaves the local working tree exactly as the
first call left it. -/
theorem C2_sync_idempotent (s : GitState) :
    (RepoCloner.gitCloneS (RepoCloner.gitCloneS s).1).2 = SyncResult.alreadyUpToDate ∧
    (RepoCloner.gitCloneS (RepoCloner.gitCloneS s).1).1 = (RepoCloner.gitCloneS s).1 := by
  rcases s with ⟨l, r⟩
  cases l with
  | none => simp [RepoCloner.gitCloneS]
  | some c =>
    by_cases hc : c = r <;>
      simp [RepoCloner.gitCloneS, hc]

lemma cloneCall_mem_gitClone (rc : RepoCloner) (gb : GitBackend) (p : GProject)
    (dest : String) :
    Ev.cloneCall p.id (pathJoin rc.destDir (pathJoin dest p.path)) p.sshURLToRepo
      ∈ rc.gitClone gb p dest := by
  unfold RepoCloner.gitClone
  exact List.mem_cons_self _ _

lemma pathJoin_empty_left (b : String) : pathJoin "" b = b := by
  simp [pathJoin]

/-- C9: the update step always applies the force policy: every pull event
the sync primitive can ever emit targets the `origin` remote with force
enabled, and in the sync-primitive state model every sync call leaves the
local tree equal to the remote tip — local divergence is discarded, local
edits are never preserved. -/
theorem C9_force_policy :
    (∀ (rc : RepoCloner) (gb : GitBackend) (p : GProject) (dest : String),
      pullsForced (rc.gitClone gb p dest) = true) ∧
    (∀ s : GitState, ((RepoCloner.gitCloneS s).1).localRepo = some s.remoteTip) := by
  refine ⟨pullsForced_gitClone, ?_⟩
  intro s
  rcases s with ⟨l, r⟩
  cases l with
  | none => simp [RepoCloner.gitCloneS]
  | some c => by_cases hc : c = r <;> simp [RepoCloner.gitCloneS, hc]

/-- C3: a clone attempt failing with `ErrRepositoryAlreadyExists` is not
treated as an error: the sync proceeds to open the existing repository
(no clone error is logged); any other clone failure abandons the sync for
that repository immediately — the whole trace is the clone attempt and
its error log, with no open, worktree or pull. -/
theorem C3_clone_error_taxonomy (rc : RepoCloner) (gb : GitBackend) (p : GProject)
    (dest : String) :
    (gb.clone (pathJoin rc.destDir (pathJoin dest p.path)) = CloneOutcome.alreadyExists →
      Ev.openCall (pathJoin rc.destDir (pathJoin dest p.path)) ∈ rc.gitClone gb p dest ∧
      Ev.errLog "clone" ∉ rc.gitClone gb p dest) ∧
    (gb.clone (pathJoin rc.destDir (pathJoin dest p.path)) = CloneOutcome.failed →
      rc.gitClone gb p dest =
        [Ev.cloneCall p.id (pathJoin rc.destDir (pathJoin dest p.path)) p.sshURLToRepo,
         Ev.errLog "clone"]) := by
  constructor
  · intro hae
    unfold RepoCloner.gitClone
    constructor
    · simp [hae]
    · cases h2 : gb.openRepo (pathJoin rc.destDir (pathJoin dest p.path)) <;>
        cases h3 : gb.worktree (pathJoin rc.destDir (pathJoin dest p.path)) <;>
        cases h4 : gb.pull (pathJoin rc.destDir (pathJoin dest p.path)) <;>
        simp [hae, h2, h3, h4]
  · intro hf
    unfold RepoCloner.gitClone
    simp [hf]

/-- C4: an update result of `NoErrAlreadyUpToDate` is not treated as an
error: the sync returns as a terminal success, the trace being exactly
the four calls with nothing logged and nothing after the pull; any other
update failure appends a pull error log and the sync is abandoned. -/
theorem C4_pull_error_taxonomy (rc : RepoCloner) (gb : GitBackend) (p : GProject)
    (dest : String)
    (hc : gb.clone (pathJoin rc.destDir (pathJoin dest p.path)) ≠ CloneOutcome.failed)
    (ho : gb.openRepo (pathJoin rc.destDir (pathJoin dest p.path)) = OpenOutcome.opened)
    (hw : gb.worktree (pathJoin rc.destDir (pathJoin dest p.path)) = WorktreeOutcome.ok) :
    (gb.pull (pathJoin rc.destDir (pathJoin dest p.path)) = PullOutcome.alreadyUpToDate →
      rc.gitClone gb p dest =
        [Ev.cloneCall p.id (pathJoin rc.destDir (pathJoin dest p.path)) p.sshURLToRepo,
         Ev.openCall (pathJoin rc.destDir (pathJoin dest p.path)),
         Ev.worktreeCall (pathJoin rc.destDir (pathJoin dest p.path)),
         Ev.pullCall (pathJoin rc.destDir (pathJoin dest p.path)) "origin" true]) ∧
    (gb.pull (pathJoin rc.destDir (pathJoin dest p.path)) = PullOutcome.failed →
      rc.gitClone gb p dest =
        [Ev.cloneCall p.id (pathJoin rc.destDir (pathJoin dest p.path)) p.sshURLToRepo,
         Ev.openCall (pathJoin rc.destDir (pathJoin dest p.path)),
         Ev.worktreeCall (pathJoin rc.destDir (pathJoin dest p.path)),
         Ev.pullCall (pathJoin rc.destDir (pathJoin dest p.path)) "origin" true,
         Ev.errLog "pull"]) := by
  constructor <;> intro hp <;> unfold RepoCloner.gitClone <;>
    cases h1 : gb.clone (pathJoin rc.destDir (pathJoin dest p.path)) <;>
    simp_all [h1, ho, hw, hp]

/-- A minimal configuration for concrete runs: destination root `d`,
nothing excluded. -/
def rcW : RepoCloner :=
  { destDir := "d", ignoreProjectIDs := [], ignoreGroupIDs := [] }

/-- A concrete project used in concrete runs. -/
def pW : GProject := { id := 1, path := "p", sshURLToRepo := "u" }

/-- A backend where the destination already holds a repository: clone
reports `alreadyExists`, open and worktree succeed, pull finds nothing
new. -/
def gbAE : GitBackend :=
  { clone := fun _ => CloneOutcome.alreadyExists
    openRepo := fun _ => OpenOutcome.opened
    worktree := fun _ => WorktreeOutcome.ok
    pull := fun _ => PullOutcome.alreadyUpToDate }

/-- A backend where every clone fails with an error other than
`alreadyExists`. -/
def gbCloneFail : GitBackend :=
  { clone := fun _ => CloneOutcome.failed
    openRepo := fun _ => OpenOutcome.failed
    worktree := fun _ => WorktreeOutcome.failed
    pull := fun _ => PullOutcome.failed }

/-- A backend where the clone succeeds but the pull fails with an error
other than `NoErrAlreadyUpToDate`. -/
def gbPullFail : GitBackend :=
  { clone := fun _ => CloneOutcome.cloned
    openRepo := fun _ => OpenOutcome.opened
    worktree := fun _ => WorktreeOutcome.ok
    pull := fun _ => PullOutcome.failed }

/-- Witness for C3 at concrete inputs: with an `alreadyExists` clone the
existing repository is opened and no clone error is logged; with a failed
clone the trace is exactly the clone attempt plus its error log. -/
theorem C3_witness :
    (Ev.openCall "d/p" ∈ rcW.gitClone gbAE pW "" ∧
     Ev.errLog "clone" ∉ rcW.gitClone gbAE pW "") ∧
    rcW.gitClone gbCloneFail pW "" =
      [Ev.cloneCall 1 "d/p" "u", Ev.errLog "clone"] := by
  constructor
  · have h := (C3_clone_error_taxonomy rcW gbAE pW "").1 rfl
    simpa [rcW, pW, pathJoin] using h
  · have h := (C3_clone_error_taxonomy rcW gbCloneFail pW "").2 rfl
    simpa [rcW, pW, pathJoin] using h

/-- Witness for C4 at concrete inputs: an `alreadyUpToDate` pull ends the
sync with the four calls and nothing logged; a failed pull appends the
pull error log. -/
theorem C4_witness :
    rcW.gitClone gbAE pW "" =
      [Ev.cloneCall 1 "d/p" "u", Ev.openCall "d/p", Ev.worktreeCall "d/p",
       Ev.pullCall "d/p" "origin" true] ∧
    rcW.gitClone gbPullFail pW "" =
      [Ev.cloneCall 1 "d/p" "u", Ev.openCall "d/p", Ev.worktreeCall "d/p",
       Ev.pullCall "d/p" "origin" true, Ev.errLog "pull"] := by
  constructor
  · have h := (C4_pull_error_taxonomy rcW gbAE pW "" (by decide) rfl rfl).1 rfl
    simpa [rcW, pW, pathJoin] using h
  · have h := (C4_pull_error_taxonomy rcW gbPullFail pW "" (by decide) rfl rfl).2 rfl
    simpa [rcW, pW, pathJoin] using h

/-- The tail of a group's trace from the subgroup-listing call onward:
either the listing fails and is logged, or each served subgroup is
recursed into. -/
def subTail (rc : RepoCloner) (w : World) (gb : GitBackend) (fuel : Nat)
    (gid : Int) : List Ev :=
  match w.subGroups gid with
  | none => [Ev.errLog "list subgroups"]
  | some allGroups =>
    ((listPage listOptions allGroups).map
        (fun g => RepoCloner.Group rc w gb fuel g.id)).flatten

lemma Group_succ_eq (rc : RepoCloner) (w : World) (gb : GitBackend) (fuel : Nat)
    (gid : Int) (gi : GGroup) (allP : List GProject)
    (hig : gid ∉ rc.ignoreGroupIDs) (hg : w.getGroup gid = some gi)
    (hp : w.groupProjects gi.id = some allP) :
    RepoCloner.Group rc w gb (fuel + 1) gid =
      Ev.getGroup gid :: Ev.listGroupProjects gi.id 1 1000 ::
      (((listPage listOptions allP).map
          (fun q => rc.gitClone gb q gi.fullPath)).flatten ++
        Ev.listSubGroups gi.id 1 1000 :: subTail rc w gb fuel gi.id) := by
  simp [RepoCloner.Group, subTail, hig, hg, hp, listOptions]

/-- C5: if listing a (non-excluded, successfully fetched) group's direct
projects fails, `Group` returns immediately: the whole trace is the two
fetches plus the error log, so the subgroup listing for that group is
never attempted and no subgroup is traversed. -/
theorem C5_project_listing_failure (rc : RepoCloner) (w : World) (gb : GitBackend)
    (fuel : Nat) (gid : Int) (gi : GGroup)
    (hig : gid ∉ rc.ignoreGroupIDs) (hg : w.getGroup gid = some gi)
    (hp : w.groupProjects gi.id = none) :
    RepoCloner.Group rc w gb (fuel + 1) gid =
      [Ev.getGroup gid, Ev.listGroupProjects gi.id 1 1000, Ev.errLog "list projects"] ∧
    ∀ i pg pp, Ev.listSubGroups i pg pp ∉ RepoCloner.Group rc w gb (fuel + 1) gid := by
  have h : RepoCloner.Group rc w gb (fuel + 1) gid =
      [Ev.getGroup gid, Ev.listGroupProjects gi.id 1 1000, Ev.errLog "list projects"] := by
    simp [RepoCloner.Group, hig, hg, hp, listOptions]
  refine ⟨h, ?_⟩
  intro i pg pp
  rw [h]
  simp

/-- C6: destination paths: a project served by the listing of a visited
group is cloned at `destDir / group full path / project path segment`,
while a project given directly as a root is synced with an empty
destination prefix and hence cloned at `destDir / project path segment`,
not nested under any group path. -/
theorem C6_destination_paths (rc : RepoCloner) (w : World) (gb : GitBackend) :
    (∀ (fuel : Nat) (gid : Int) (gi : GGroup) (allP : List GProject) (p : GProject),
      gid ∉ rc.ignoreGroupIDs → w.getGroup gid = some gi →
      w.groupProjects gi.id = some allP → p ∈ listPage listOptions allP →
      Ev.cloneCall p.id (pathJoin rc.destDir (pathJoin gi.fullPath p.path)) p.sshURLToRepo
        ∈ RepoCloner.Group rc w gb (fuel + 1) gid) ∧
    (∀ (pid : Int) (p : GProject), pid ∉ rc.ignoreProjectIDs →
      w.getProject pid = some p →
      RepoCloner.Project rc w gb pid = Ev.getProject pid :: rc.gitClone gb p "" ∧
      Ev.cloneCall p.id (pathJoin rc.destDir p.path) p.sshURLToRepo
        ∈ RepoCloner.Project rc w gb pid) := by
  constructor
  · intro fuel gid gi allP p hig hg hp hmem
    rw [Group_succ_eq rc w gb fuel gid gi allP hig hg hp]
    have hin : Ev.cloneCall p.id (pathJoin rc.destDir (pathJoin gi.fullPath p.path))
        p.sshURLToRepo
        ∈ ((listPage listOptions allP).map (fun q => rc.gitClone gb q gi.fullPath)).flatten :=
      List.mem_flatten.mpr
        ⟨rc.gitClone gb p gi.fullPath, List.mem_map_of_mem _ hmem,
          cloneCall_mem_gitClone rc gb p gi.fullPath⟩
    exact List.mem_cons_of_mem _ (List.mem_cons_of_mem _ (List.mem_append_left _ hin))
  · intro pid p hip hgp
    have h : RepoCloner.Project rc w gb pid = Ev.getProject pid :: rc.gitClone gb p "" := by
      simp [RepoCloner.Project, hip, hgp]
    refine ⟨h, ?_⟩
    rw [h]
    have := cloneCall_mem_gitClone rc gb p ""
    rw [pathJoin_empty_left] at this
    exact List.mem_cons_of_mem _ this

/-- A world holding one group (ID 10) whose project listing fails; every
other lookup fails or is empty. -/
def wC5 : World :=
  { getGroup := fun gid => if gid = 10 then some ⟨10, "g10"⟩ else none
    groupProjects := fun _ => none
    subGroups := fun _ => some []
    getProject := fun _ => none }

/-- Witness for C5 at concrete inputs: group 10's project listing fails,
so its trace stops at the error log and no subgroup listing occurs. -/
theorem C5_witness :
    RepoCloner.Group rcW wC5 gbAE 1 10 =
      [Ev.getGroup 10, Ev.listGroupProjects 10 1 1000, Ev.errLog "list projects"] ∧
    Ev.listSubGroups 10 1 1000 ∉ RepoCloner.Group rcW wC5 gbAE 1 10 := by
  have h := C5_project_listing_failure rcW wC5 gbAE 0 10 ⟨10, "g10"⟩
    (by decide) (by decide) rfl
  exact ⟨h.1, h.2 10 1 1000⟩

/-- A world with root group 10 owning project 5 and subgroup 11, subgroup
11 owning nothing, and standalone project 7. -/
def wBig : World :=
  { getGroup := fun gid =>
      if gid = 10 then some ⟨10, "g10"⟩
      else if gid = 11 then some ⟨11, "g10/g11"⟩ else none
    groupProjects := fun gid =>
      if gid = 10 then some [⟨5, "p5", "ssh5"⟩]
      else if gid = 11 then some [] else none
    subGroups := fun gid => if gid = 10 then some [⟨11, "g10/g11"⟩] else some []
    getProject := fun pid => if pid = 7 then some ⟨7, "p7", "u7"⟩ else none }

/-- Witness for C6 at concrete inputs: project 5 under group 10 is cloned
at `d/g10/p5`; root project 7 is cloned at `d/p7`, directly under the
destination root. -/
theorem C6_witness :
    Ev.cloneCall 5 (pathJoin "d" (pathJoin "g10" "p5")) "ssh5"
      ∈ RepoCloner.Group rcW wBig gbAE 1 10 ∧
    Ev.cloneCall 7 (pathJoin "d" "p7") "u7" ∈ RepoCloner.Project rcW wBig gbAE 7 := by
  have h := C6_destination_paths rcW wBig gbAE
  constructor
  · exact h.1 0 10 ⟨10, "g10"⟩ [⟨5, "p5", "ssh5"⟩] ⟨5, "p5", "ssh5"⟩
      (by decide) (by decide) (by decide) (by decide)
  · exact (h.2 7 ⟨7, "p7", "u7"⟩ (by decide) (by decide)).2

/-- A configuration that excludes project 5 and group 9. -/
def rcIg : RepoCloner :=
  { destDir := "d", ignoreProjectIDs := [5], ignoreGroupIDs := [9] }

/-- Counterexample to C1 as stated: project 5 is in the excluded-project
set, yet when it is listed among the direct projects of visited group 10
the run still issues the clone for it — a network fetch of the repository
that creates and writes its destination path `d/g10/p5`. -/
theorem C1_counterexample :
    Ev.cloneCall 5 (pathJoin "d" (pathJoin "g10" "p5")) "ssh5"
      ∈ RepoCloner.Group rcIg wBig gbAE 2 10 := by
  decide

/-- C1 amended: the exclusion sets are honored at the entry points only:
an excluded group ID passed to `Group` and an excluded project ID passed
to `Project` each return immediately with just the skip warning — no
fetch, no filesystem write.  But the group traversal hands every listed
project straight to the sync primitive without consulting the
excluded-project set, so an excluded project listed under a visited group
is still fetched and its path still created. -/
theorem C1_exclusion (rc : RepoCloner) (w : World) (gb : GitBackend) :
    (∀ (fuel : Nat) (gid : Int), gid ∈ rc.ignoreGroupIDs →
      RepoCloner.Group rc w gb (fuel + 1) gid = [Ev.warnIgnoreGroup gid]) ∧
    (∀ pid : Int, pid ∈ rc.ignoreProjectIDs →
      RepoCloner.Project rc w gb pid = [Ev.warnIgnoreProject pid]) ∧
    (∀ (fuel : Nat) (gid : Int) (gi : GGroup) (allP : List GProject) (p : GProject),
      gid ∉ rc.ignoreGroupIDs → w.getGroup gid = some gi →
      w.groupProjects gi.id = some allP → p ∈ listPage listOptions allP →
      p.id ∈ rc.ignoreProjectIDs →
      Ev.cloneCall p.id (pathJoin rc.destDir (pathJoin gi.fullPath p.path)) p.sshURLToRepo
        ∈ RepoCloner.Group rc w gb (fuel + 1) gid) := by
  refine ⟨?_, ?_, ?_⟩
  · intro fuel gid h
    simp [RepoCloner.Group, h]
  · intro pid h
    simp [RepoCloner.Project, h]
  · intro fuel gid gi allP p hig hg hp hmem _
    rw [Group_succ_eq rc w gb fuel gid gi allP hig hg hp]
    have hin : Ev.cloneCall p.id (pathJoin rc.destDir (pathJoin gi.fullPath p.path))
        p.sshURLToRepo
        ∈ ((listPage listOptions allP).map (fun q => rc.gitClone gb q gi.fullPath)).flatten :=
      List.mem_flatten.mpr
        ⟨rc.gitClone gb p gi.fullPath, List.mem_map_of_mem _ hmem,
          cloneCall_mem_gitClone rc gb p gi.fullPath⟩
    exact List.mem_cons_of_mem _ (List.mem_cons_of_mem _ (List.mem_append_left _ hin))

/-- Witness for the amended C1 at concrete inputs: excluded group 9 and
excluded root project 5 produce only their skip warnings, while excluded
project 5 listed under visited group 10 is still cloned at `d/g10/p5`. -/
theorem C1_witness :
    RepoCloner.Group rcIg wBig gbAE 1 9 = [Ev.warnIgnoreGroup 9] ∧
    RepoCloner.Project rcIg wBig gbAE 5 = [Ev.warnIgnoreProject 5] ∧
    Ev.cloneCall 5 (pathJoin "d" (pathJoin "g10" "p5")) "ssh5"
      ∈ RepoCloner.Group rcIg wBig gbAE 1 10 := by
  have h := C1_exclusion rcIg wBig gbAE
  exact ⟨h.1 0 9 (by decide), h.2.1 5 (by decide),
    h.2.2 0 10 ⟨10, "g10"⟩ [⟨5, "p5", "ssh5"⟩] ⟨5, "p5", "ssh5"⟩
      (by decide) (by decide) (by decide) (by decide) (by decide)⟩

/-- C7: failures stay local.  First, the root loop is a concatenation of
independent per-root traces, so one root's events never cut off the
remaining roots.  Second, in the concrete flagged scenario: when a parent
group's subgroup page is `[x, y]` and fetching `x`'s metadata fails, the
parent's trace is exactly its own prefix, then `x`'s two-event abandoned
trace, then `y`'s full traversal — the sibling is synchronized
regardless. -/
theorem C7_sibling_isolation (rc : RepoCloner) (w : World) (gb : GitBackend) :
    (∀ (fuel : Nat) (g : Int) (gs pids : List Int),
      runRoots rc w gb fuel (g :: gs) pids =
        RepoCloner.Group rc w gb fuel g ++ runRoots rc w gb fuel gs pids) ∧
    (∀ (fuel : Nat) (gid : Int) (gi : GGroup) (allP : List GProject)
        (sg : List GGroup) (x y : GGroup),
      gid ∉ rc.ignoreGroupIDs → w.getGroup gid = some gi →
      w.groupProjects gi.id = some allP → w.subGroups gi.id = some sg →
      listPage listOptions sg = [x, y] →
      x.id ∉ rc.ignoreGroupIDs → w.getGroup x.id = none →
      RepoCloner.Group rc w gb (fuel + 2) gid =
        (Ev.getGroup gid :: Ev.listGroupProjects gi.id 1 1000 ::
          (((listPage listOptions allP).map
              (fun q => rc.gitClone gb q gi.fullPath)).flatten ++
            [Ev.listSubGroups gi.id 1 1000])) ++
        ([Ev.getGroup x.id, Ev.errLog "get group"] ++
          RepoCloner.Group rc w gb (fuel + 1) y.id) ∧
      ∃ t, RepoCloner.Group rc w gb (fuel + 2) gid =
        t ++ RepoCloner.Group rc w gb (fuel + 1) y.id) := by
  constructor
  · intro fuel g gs pids
    simp [runRoots, List.append_assoc]
  · intro fuel gid gi allP sg x y hig hg hp hs hpage hxig hxg
    have hx : RepoCloner.Group rc w gb (fuel + 1) x.id =
        [Ev.getGroup x.id, Ev.errLog "get group"] := by
      simp [RepoCloner.Group, hxig, hxg]
    have hEq : RepoCloner.Group rc w gb (fuel + 2) gid =
        (Ev.getGroup gid :: Ev.listGroupProjects gi.id 1 1000 ::
          (((listPage listOptions allP).map
              (fun q => rc.gitClone gb q gi.fullPath)).flatten ++
            [Ev.listSubGroups gi.id 1 1000])) ++
        ([Ev.getGroup x.id, Ev.errLog "get group"] ++
          RepoCloner.Group rc w gb (fuel + 1) y.id) := by
      rw [Group_succ_eq rc w gb (fuel + 1) gid gi allP hig hg hp]
      have hst : subTail rc w gb (fuel + 1) gi.id =
          RepoCloner.Group rc w gb (fuel + 1) x.id ++
            (RepoCloner.Group rc w gb (fuel + 1) y.id ++ []) := by
        simp [subTail, hs, hpage]
      rw [hst, hx]
      simp [List.append_assoc]
    exact ⟨hEq, _, by rw [hEq, ← List.append_assoc]⟩

/-- A world with parent group 20, whose subgroup 21 has failing metadata
and whose subgroup 22 resolves fine. -/
def wSib : World :=
  { getGroup := fun gid =>
      if gid = 20 then some ⟨20, "g20"⟩
      else if gid = 22 then some ⟨22, "g20/g22"⟩ else none
    groupProjects := fun gid =>
      if gid = 20 then some [] else if gid = 22 then some [] else none
    subGroups := fun gid =>
      if gid = 20 then some [⟨21, "g20/g21"⟩, ⟨22, "g20/g22"⟩] else some []
    getProject := fun _ => none }

/-- Witness for C7 at concrete inputs: fetching subgroup 21 fails, yet
group 20's trace still ends with sibling subgroup 22's full traversal. -/
theorem C7_witness :
    RepoCloner.Group rcW wSib gbAE 2 20 =
      [Ev.getGroup 20, Ev.listGroupProjects 20 1 1000, Ev.listSubGroups 20 1 1000,
       Ev.getGroup 21, Ev.errLog "get group"] ++ RepoCloner.Group rcW wSib gbAE 1 22 ∧
    ∃ t, RepoCloner.Group rcW wSib gbAE 2 20 =
      t ++ RepoCloner.Group rcW wSib gbAE 1 22 := by
  have h := (C7_sibling_isolation rcW wSib gbAE).2 0 20 ⟨20, "g20"⟩ []
    [⟨21, "g20/g21"⟩, ⟨22, "g20/g22"⟩] ⟨21, "g20/g21"⟩ ⟨22, "g20/g22"⟩
    (by decide) (by decide) (by decide) (by decide) (by decide) (by decide) (by decide)
  refine ⟨?_, h.2⟩
  have h1 := h.1
  simpa [listPage, listOptions] using h1

/-- An acyclicity certificate for the remote hierarchy: a measure on
group IDs that strictly decreases from a fetched group to every subgroup
the API serves for it.  A finite acyclic hierarchy (which the source
system guarantees) always admits one, e.g. the height of each group. -/
def SubMeasure (w : World) (m : Int → Nat) : Prop :=
  ∀ (gid : Int) (gi : GGroup) (l : List GGroup),
    w.getGroup gid = some gi → w.subGroups gi.id = some l →
    ∀ sub ∈ listPage listOptions l, m sub.id < m gid

lemma Group_no_fuelOut (rc : RepoCloner) (w : World) (gb : GitBackend)
    (m : Int → Nat) (hm : SubMeasure w m) :
    ∀ (fuel : Nat) (gid : Int), m gid < fuel →
      Ev.fuelOut ∉ RepoCloner.Group rc w gb fuel gid := by
  intro fuel
  induction fuel with
  | zero => intro gid h; omega
  | succ n ih =>
    intro gid h hmem
    by_cases hig : gid ∈ rc.ignoreGroupIDs
    · simp [RepoCloner.Group, hig] at hmem
    · rcases hg : w.getGroup gid with _ | gi
      · simp [RepoCloner.Group, hig, hg] at hmem
      · rcases hp : w.groupProjects gi.id with _ | allP
        · simp [RepoCloner.Group, hig, hg, hp] at hmem
        · rw [Group_succ_eq rc w gb n gid gi allP hig hg hp] at hmem
          rcases hs : w.subGroups gi.id with _ | sgs
          · simp [subTail, hs, List.mem_flatten] at hmem
            rcases hmem with ⟨q, hq, hl⟩
            exact fuelOut_not_mem_gitClone rc gb q gi.fullPath hl
          · simp [subTail, hs, List.mem_flatten] at hmem
            rcases hmem with ⟨q, hq, hl⟩ | ⟨sub, hsub, hl⟩
            · exact fuelOut_not_mem_gitClone rc gb q gi.fullPath hl
            · refine ih sub.id ?_ hl
              have := hm gid gi sgs hg hs sub hsub
              omega

lemma Group_fuel_stable (rc : RepoCloner) (w : World) (gb : GitBackend)
    (m : Int → Nat) (hm : SubMeasure w m) :
    ∀ (f1 f2 : Nat) (gid : Int), m gid < f1 → m gid < f2 →
      RepoCloner.Group rc w gb f1 gid = RepoCloner.Group rc w gb f2 gid := by
  intro f1
  induction f1 with
  | zero => intro f2 gid h1 _; omega
  | succ a ih =>
    intro f2 gid h1 h2
    rcases f2 with _ | b
    · omega
    · by_cases hig : gid ∈ rc.ignoreGroupIDs
      · simp [RepoCloner.Group, hig]
      · rcases hg : w.getGroup gid with _ | gi
        · simp [RepoCloner.Group, hig, hg]
        · rcases hp : w.groupProjects gi.id with _ | allP
          · simp [RepoCloner.Group, hig, hg, hp]
          · rw [Group_succ_eq rc w gb a gid gi allP hig hg hp,
                Group_succ_eq rc w gb b gid gi allP hig hg hp]
            rcases hs : w.subGroups gi.id with _ | sgs
            · simp [subTail, hs]
            · have hmap : (listPage listOptions sgs).map
                  (fun g => RepoCloner.Group rc w gb a g.id) =
                  (listPage listOptions sgs).map
                  (fun g => RepoCloner.Group rc w gb b g.id) := by
                apply List.map_congr_left
                intro sub hsub
                have hlt := hm gid gi sgs hg hs sub hsub
                exact ih b sub.id (by omega) (by omega)
              simp [subTail, hs, hmap]

/-- C8: under an acyclicity measure for the remote hierarchy the
traversal is total even though it keeps no visited-set: the
fuel-exhaustion marker never appears once the fuel exceeds the root's
measure, and the trace is independent of the fuel; moreover the traversal
is depth-first with each group's direct projects synced before its
subgroup listing and recursion. -/
theorem C8_termination_dfs (rc : RepoCloner) (w : World) (gb : GitBackend)
    (m : Int → Nat) (hm : SubMeasure w m) :
    (∀ (fuel : Nat) (gid : Int), m gid < fuel →
      Ev.fuelOut ∉ RepoCloner.Group rc w gb fuel gid) ∧
    (∀ (f1 f2 : Nat) (gid : Int), m gid < f1 → m gid < f2 →
      RepoCloner.Group rc w gb f1 gid = RepoCloner.Group rc w gb f2 gid) ∧
    (∀ (fuel : Nat) (gid : Int) (gi : GGroup) (allP : List GProject),
      gid ∉ rc.ignoreGroupIDs → w.getGroup gid = some gi →
      w.groupProjects gi.id = some allP →
      RepoCloner.Group rc w gb (fuel + 1) gid =
        Ev.getGroup gid :: Ev.listGroupProjects gi.id 1 1000 ::
        (((listPage listOptions allP).map
            (fun q => rc.gitClone gb q gi.fullPath)).flatten ++
          Ev.listSubGroups gi.id 1 1000 :: subTail rc w gb fuel gi.id)) :=
  ⟨Group_no_fuelOut rc w gb m hm, Group_fuel_stable rc w gb m hm,
    fun fuel gid gi allP hig hg hp => Group_succ_eq rc w gb fuel gid gi allP hig hg hp⟩

/-- Witness for C8 at concrete inputs: with the constant-zero measure
(the world `wC5` serves no subgroups) fuel 1 already suffices for group
10 and the trace is fuel-independent. -/
theorem C8_witness :
    Ev.fuelOut ∉ RepoCloner.Group rcW wC5 gbAE 1 10 ∧
    RepoCloner.Group rcW wC5 gbAE 1 10 = RepoCloner.Group rcW wC5 gbAE 5 10 := by
  have hm : SubMeasure wC5 (fun _ => 0) := by
    intro gid gi l _ hs sub hsub
    have hl : l = [] := by simpa [wC5] using hs.symm
    subst hl
    simp [listPage, listOptions] at hsub
  have h := C8_termination_dfs rcW wC5 gbAE (fun _ => 0) hm
  exact ⟨h.1 1 10 (by decide), h.2.1 1 5 10 (by decide) (by decide)⟩

lemma Group_firstPageOnly (rc : RepoCloner) (w : World) (gb : GitBackend) :
    ∀ (fuel : Nat) (gid : Int),
      firstPageOnly (RepoCloner.Group rc w gb fuel gid) = true := by
  intro fuel
  induction fuel with
  | zero => intro gid; simp [RepoCloner.Group, firstPageOnly, evFirstPage]
  | succ n ih =>
    intro gid
    by_cases hig : gid ∈ rc.ignoreGroupIDs
    · simp [RepoCloner.Group, hig, firstPageOnly, evFirstPage]
    · rcases hg : w.getGroup gid with _ | gi
      · simp [RepoCloner.Group, hig, hg, firstPageOnly, evFirstPage]
      · rcases hp : w.groupProjects gi.id with _ | allP
        · simp [RepoCloner.Group, hig, hg, hp, firstPageOnly, evFirstPage, listOptions]
        · rw [Group_succ_eq rc w gb n gid gi allP hig hg hp]
          simp only [firstPageOnly, List.all_cons, List.all_append, List.all_flatten,
            List.all_map, Bool.and_eq_true]
          refine ⟨rfl, rfl, ?_, rfl, ?_⟩
          · rw [List.all_eq_true]
            intro l hl
            rcases List.mem_map.mp hl with ⟨q, _, rfl⟩
            exact firstPageOnly_gitClone rc gb q gi.fullPath
          · rcases hs : w.subGroups gi.id with _ | sgs
            · simp [subTail, hs, evFirstPage]
            · simp only [subTail, hs, List.all_flatten]
              rw [List.all_eq_true]
              intro l hl
              rcases List.mem_map.mp hl with ⟨sub, _, rfl⟩
              exact ih sub.id

lemma Project_firstPageOnly (rc : RepoCloner) (w : World) (gb : GitBackend)
    (pid : Int) : firstPageOnly (RepoCloner.Project rc w gb pid) = true := by
  unfold RepoCloner.Project
  by_cases hip : pid ∈ rc.ignoreProjectIDs
  · simp [hip, firstPageOnly, evFirstPage]
  · rcases hgp : w.getProject pid with _ | p
    · simp [hip, hgp, firstPageOnly, evFirstPage]
    · simp only [if_neg hip, hgp, firstPageOnly, List.all_cons, Bool.and_eq_true]
      exact ⟨rfl, firstPageOnly_gitClone rc gb p ""⟩

/-- C10: pagination is first-page-only: every listing event any run can
emit requests page 1 with page size 1000; the page the API serves for
these options is the first 1000 entries of the full listing; and a
visited group's trace processes exactly that first page of its projects
and of its subgroups, so entries beyond the first 1000 are never synced
or traversed. -/
theorem C10_first_page_only (rc : RepoCloner) (w : World) (gb : GitBackend) :
    (∀ (fuel : Nat) (gid : Int),
      firstPageOnly (RepoCloner.Group rc w gb fuel gid) = true) ∧
    (∀ pid : Int, firstPageOnly (RepoCloner.Project rc w gb pid) = true) ∧
    (∀ (α : Type) (l : List α), listPage listOptions l = l.take 1000) ∧
    (∀ (fuel : Nat) (gid : Int) (gi : GGroup) (allP : List GProject)
        (sg : List GGroup),
      gid ∉ rc.ignoreGroupIDs → w.getGroup gid = some gi →
      w.groupProjects gi.id = some allP → w.subGroups gi.id = some sg →
      RepoCloner.Group rc w gb (fuel + 1) gid =
        Ev.getGroup gid :: Ev.listGroupProjects gi.id 1 1000 ::
        (((allP.take 1000).map (fun q => rc.gitClone gb q gi.fullPath)).flatten ++
          Ev.listSubGroups gi.id 1 1000 ::
          ((sg.take 1000).map (fun g => RepoCloner.Group rc w gb fuel g.id)).flatten)) := by
  have hpage : ∀ (α : Type) (l : List α), listPage listOptions l = l.take 1000 := by
    intro α l
    simp [listPage, listOptions]
  refine ⟨Group_firstPageOnly rc w gb, Project_firstPageOnly rc w gb, hpage, ?_⟩
  intro fuel gid gi allP sg hig hg hp hs
  rw [Group_succ_eq rc w gb fuel gid gi allP hig hg hp]
  rw [hpage _ allP]
  simp [subTail, hs, hpage _ sg]

/-- Witness for C10 at concrete inputs: group 10's run in the two-level
world requests only first pages, and its trace is the first-page
unfolding. -/
theorem C10_witness :
    firstPageOnly (RepoCloner.Group rcW wBig gbAE 2 10) = true ∧
    firstPageOnly (RepoCloner.Project rcW wBig gbAE 7) = true ∧
    RepoCloner.Group rcW wBig gbAE 1 10 =
      Ev.getGroup 10 :: Ev.listGroupProjects 10 1 1000 ::
      ((([(⟨5, "p5", "ssh5"⟩ : GProject)].take 1000).map
          (fun q => rcW.gitClone gbAE q "g10")).flatten ++
        Ev.listSubGroups 10 1 1000 ::
        ((([(⟨11, "g10/g11"⟩ : GGroup)].take 1000).map
            (fun g => RepoCloner.Group rcW wBig gbAE 0 g.id)).flatten)) := by
  have h := C10_first_page_only rcW wBig gbAE
  exact ⟨h.1 2 10, h.2.1 7,
    h.2.2.2 0 10 ⟨10, "g10"⟩ [⟨5, "p5", "ssh5"⟩] [⟨11, "g10/g11"⟩]
      (by decide) (by decide) (by decide) (by decide)⟩
